import Mathlib

/-!
MapComponent: solar calculator, month features, region lookup.

A shallow embedding of the computational parts of
`src/src/components/MapComponent.jsx`.

The numeric code is embedded twice.  `calculatorValues` and `getMonthFeatures`
read the arithmetic exactly (`ℚ`, and `ℝ` with `Real.pi`); they carry the
statements that do not depend on rounding.  `calculatorValuesDouble` and
`getMonthFeaturesDouble` read the same lines on IEEE 754 binary64 numbers: a
double is the rational it denotes, every `*` and `/` is rounded to the nearest
double by `fl` (ties to even), and `Math.PI` is the double nearest to π.
Overflow, subnormal numbers, `NaN` and the last rounding inside `Math.sin` and
`Math.cos` are not modelled.  A value that may be `null` or `undefined` is an
`Option`.
-/

set_option autoImplicit false

namespace MapComponent

/-! ## The calculator effect (lines 78-112) -/

namespace Math

/-- `Math.round`: the nearest integer, a tie going to the larger one. -/
def round (x : ℚ) : ℤ := ⌊x + 1 / 2⌋

/-- `Math.min` of two numbers. -/
def min (a b : ℚ) : ℚ := if a ≤ b then a else b

end Math

/-- The expression `predictionResult || 4.5` (line 80): the left operand when
it is truthy, otherwise `4.5`.  The falsy values of the model are `null`
(`none`) and the number `0`. -/
def solarEnergyValue (predictionResult : Option ℚ) : ℚ :=
  match predictionResult with
  | some p => if p = 0 then 4.5 else p
  | none => 4.5

/-- The local constants of the effect's guarded block (lines 84-102). -/
structure CalculatorValues where
  monthlyUsage : ℚ
  annualEnergy : ℚ
  carbonOffset : ℚ
  treeEquivalent : ℤ
  monthlySavingKWh : ℚ
  monthlySavingMoney : ℚ
deriving DecidableEq

/-- The guarded block of the effect (lines 80-102) in exact arithmetic: `some`
of the computed constants when `panelArea > 0 && monthlyBill > 0`, `none` when
the guard fails and the block is skipped.  `calculatorValuesDouble` below is
the same block with the rounding of doubles. -/
def calculatorValues (panelArea monthlyBill : ℚ) (predictionResult : Option ℚ) :
    Option CalculatorValues :=
  let solarEnergyValue := solarEnergyValue predictionResult
  if panelArea > 0 ∧ monthlyBill > 0 then
    let electricityRate : ℚ := 0.15
    let monthlyUsage := monthlyBill / electricityRate
    let annualEnergy := panelArea * solarEnergyValue * 365
    let carbonOffset := (annualEnergy * 0.85) / 2000
    let treeEquivalent := Math.round ((carbonOffset * 2000) / 48)
    let monthlySavingKWh := Math.min (annualEnergy / 12) monthlyUsage
    let monthlySavingMoney := monthlySavingKWh * electricityRate
    some
      { monthlyUsage := monthlyUsage
        annualEnergy := annualEnergy
        carbonOffset := carbonOffset
        treeEquivalent := treeEquivalent
        monthlySavingKWh := monthlySavingKWh
        monthlySavingMoney := monthlySavingMoney }
  else
    none

/-- Two decimal digits of a number below one hundred, zero padded. -/
def twoDigits (n : ℕ) : String :=
  (if n < 10 then "0" else "") ++ toString n

/-- `Number.prototype.toFixed(2)`: the sign, then the integer `n` with
`n / 100` closest to `|x|` (the larger one on a tie), printed with two fraction
digits.  The exponent form JavaScript switches to from `10^21` on is not
modelled.  `formatResults` applies it to the exact value of a field, the code
to the double. -/
def toFixed2 (x : ℚ) : String :=
  let n : ℕ := (⌊|x| * 100 + 1 / 2⌋).toNat
  (if x < 0 then "-" else "") ++ toString (n / 100) ++ "." ++ twoDigits (n % 100)

/-- The `calculatedResults` state (lines 50-56, 104-110): four displayed
strings and the integer tree count.  The initial numbers `0` are rendered as
the text `0`. -/
structure CalculatedResults where
  annualEnergy : String
  carbonOffset : String
  treeEquivalent : ℤ
  monthlySavingKWh : String
  monthlySavingMoney : String
deriving DecidableEq

/-- The initial `calculatedResults` (lines 50-56). -/
def initialCalculatedResults : CalculatedResults :=
  { annualEnergy := "0"
    carbonOffset := "0"
    treeEquivalent := 0
    monthlySavingKWh := "0"
    monthlySavingMoney := "0" }

/-- The object passed to `setCalculatedResults` (lines 104-110). -/
def formatResults (v : CalculatorValues) : CalculatedResults :=
  { annualEnergy := toFixed2 v.annualEnergy
    carbonOffset := toFixed2 v.carbonOffset
    treeEquivalent := v.treeEquivalent
    monthlySavingKWh := toFixed2 v.monthlySavingKWh
    monthlySavingMoney := toFixed2 v.monthlySavingMoney }

/-- One run of the calculator effect (lines 78-112) as a state update of
`calculatedResults`: inside the guard the state is replaced, otherwise
`setCalculatedResults` is not called and the state stays as it was. -/
def calculatorEffect (panelArea monthlyBill : ℚ) (predictionResult : Option ℚ)
    (calculatedResults : CalculatedResults) : CalculatedResults :=
  match calculatorValues panelArea monthlyBill predictionResult with
  | some v => formatResults v
  | none => calculatedResults

/-- The render guard of the results panel (line 364). -/
def showResultsPanel (panelArea monthlyBill : ℚ) : Bool :=
  decide (panelArea > 0) && decide (monthlyBill > 0)

/-- The render guard of the "Enter panel area and monthly bill" message
(line 398). -/
def showEnterMessage (panelArea monthlyBill : ℚ) : Bool :=
  !(decide (panelArea > 0) && decide (monthlyBill > 0))

/-! ## The same block on IEEE 754 doubles -/

/-- The integer nearest to `x`, a tie going to the even one. -/
def roundHalfEven (x : ℚ) : ℤ :=
  let f := ⌊x⌋
  let r := x - f
  if r < 1 / 2 then f else if 1 / 2 < r then f + 1 else if f % 2 = 0 then f else f + 1

/-- Binary logarithm by repeated halving, at most `fuel` times. -/
def log2Fuel : ℕ → ℕ → ℕ
  | 0, _ => 0
  | fuel + 1, n => if n < 2 then 0 else log2Fuel fuel (n / 2) + 1

/-- For `n ≠ 0` the `k` with `2 ^ k ≤ n < 2 ^ (k + 1)`. -/
def log2 (n : ℕ) : ℕ := log2Fuel n n

/-- For `x ≠ 0` the exponent `e` with `2 ^ e ≤ |x| < 2 ^ (e + 1)`. -/
def binade (x : ℚ) : ℤ :=
  let e : ℤ := (log2 x.num.natAbs : ℤ) - (log2 x.den : ℤ)
  if (2 : ℚ) ^ e ≤ |x| then e else e - 1

/-- Rounding to binary64: the nearest number with 53 significant bits, a tie
going to the even significand.  The exponent is not bounded. -/
def fl (x : ℚ) : ℚ :=
  if x = 0 then 0 else (roundHalfEven (x / 2 ^ (binade x - 52)) : ℚ) * 2 ^ (binade x - 52)

/-- The operator `*` on doubles. -/
def fmul (a b : ℚ) : ℚ := fl (a * b)

/-- The operator `/` on doubles. -/
def fdiv (a b : ℚ) : ℚ := fl (a / b)

/-- The guarded block of the effect (lines 80-102) on doubles: the literals
`0.15` and `0.85` are the doubles nearest to them, each `*` and `/` rounds;
`Math.round` and `Math.min` are exact on doubles. -/
def calculatorValuesDouble (panelArea monthlyBill : ℚ) (predictionResult : Option ℚ) :
    Option CalculatorValues :=
  let solarEnergyValue := solarEnergyValue predictionResult
  if panelArea > 0 ∧ monthlyBill > 0 then
    let electricityRate : ℚ := fl 0.15
    let monthlyUsage := fdiv monthlyBill electricityRate
    let annualEnergy := fmul (fmul panelArea solarEnergyValue) 365
    let carbonOffset := fdiv (fmul annualEnergy (fl 0.85)) 2000
    let treeEquivalent := Math.round (fdiv (fmul carbonOffset 2000) 48)
    let monthlySavingKWh := Math.min (fdiv annualEnergy 12) monthlyUsage
    let monthlySavingMoney := fmul monthlySavingKWh electricityRate
    some
      { monthlyUsage := monthlyUsage
        annualEnergy := annualEnergy
        carbonOffset := carbonOffset
        treeEquivalent := treeEquivalent
        monthlySavingKWh := monthlySavingKWh
        monthlySavingMoney := monthlySavingMoney }
  else
    none

/-! ## Month features (lines 24-37, 114-121) -/

/-- The month labels of `MONTHS` (lines 24-37). -/
def MONTHS : List String :=
  ["Jan", "Feb", "Mar", "Apr", "May", "Jun", "Jul", "Aug", "Sep", "Oct", "Nov", "Dec"]

/-- Search of `Array.prototype.indexOf` from position `i` on. -/
def indexOfFrom (x : String) : List String → ℕ → ℤ
  | [], _ => -1
  | y :: ys, i => if y = x then (i : ℤ) else indexOfFrom x ys (i + 1)

/-- `Array.prototype.indexOf`: the first position holding `x`, and `-1` when
`x` does not occur. -/
def indexOf (xs : List String) (x : String) : ℤ :=
  indexOfFrom x xs 0

/-- The object returned by `getMonthFeatures`. -/
structure FeaturePair where
  sin : ℝ
  cos : ℝ

/-- `getMonthFeatures` (lines 114-121) over the reals, with π for `Math.PI`.
`getMonthFeaturesDouble` below is the same function on doubles. -/
noncomputable def getMonthFeatures (monthLabel : String) : FeaturePair :=
  let index := indexOf MONTHS monthLabel
  let angle := (2 * Real.pi * (index : ℝ)) / 12
  { sin := Real.sin angle
    cos := Real.cos angle }

/-- `Math.PI`: the double `3.141592653589793`. -/
def Math.PI : ℚ := 884279719003555 / 281474976710656

/-- The constant `angle` of line 116 on doubles: `(2 * Math.PI * index) / 12`,
evaluated left to right. -/
def angleDouble (index : ℤ) : ℚ :=
  fdiv (fmul (fmul 2 Math.PI) index) 12

/-- `getMonthFeatures` (lines 114-121) on doubles: the sine and cosine of the
double `angle`.  `Math.sin` and `Math.cos` are read as the real functions at
that double; their result is not rounded. -/
noncomputable def getMonthFeaturesDouble (monthLabel : String) : FeaturePair :=
  let index := indexOf MONTHS monthLabel
  let angle := angleDouble index
  { sin := Real.sin (angle : ℝ)
    cos := Real.cos (angle : ℝ) }

/-! ## Region lookup (lines 162-166) -/

/-- A row of `solarData` with the fields the component reads.  `region_name`
is a string or absent (`null` after parsing an empty cell, `undefined` when
the column is missing); `install_size_kw_buckets_json` may be absent too. -/
structure RegionRecord where
  region_name : Option String
  percent_qualified : ℚ
  count_qualified : ℚ
  total_area_sqft : ℚ
  kw_total : ℚ
  yearly_sunlight_kwh_total : ℚ
  carbon_offset_metric_tons : ℚ
  yearly_sunlight_kwh_f : ℚ
  yearly_sunlight_kwh_s : ℚ
  yearly_sunlight_kwh_w : ℚ
  yearly_sunlight_kwh_e : ℚ
  yearly_sunlight_kwh_n : ℚ
  install_size_kw_buckets_json : Option String
deriving DecidableEq

/-- The callback of `solarData.find` (lines 163-164):
`entry.region_name?.toLowerCase() === regionName?.toLowerCase()`.
An absent operand of `?.` yields `undefined`, here `none`.  The built-in
`String.prototype.toLowerCase`, which lowers every cased letter of Unicode, is
the parameter `toLowerCase`. -/
def regionPredicate (toLowerCase : String → String) (regionName : Option String)
    (entry : RegionRecord) : Bool :=
  entry.region_name.map toLowerCase == regionName.map toLowerCase

/-- The value given to `setMatchedData` (lines 162-166): the first entry of
`solarData` accepted by the callback, `null` (`none`) when there is none. -/
def regionMatch (toLowerCase : String → String) (solarData : List RegionRecord)
    (regionName : Option String) : Option RegionRecord :=
  solarData.find? (regionPredicate toLowerCase regionName)

/-- The lower-case form of a character of the Basic Latin and Latin-1 blocks:
`A`-`Z` and `À`-`Þ` (without `×`) move up by 32, every other character is
kept. -/
def latinLowerChar (c : Char) : Char :=
  if (65 ≤ c.toNat ∧ c.toNat ≤ 90) ∨ (192 ≤ c.toNat ∧ c.toNat ≤ 222 ∧ c.toNat ≠ 215) then
    Char.ofNat (c.toNat + 32)
  else
    c

/-- What `String.prototype.toLowerCase` returns on strings of Basic Latin and
Latin-1 characters; a sample value for the parameter `toLowerCase`. -/
def latinToLowerCase (s : String) : String :=
  String.mk (s.toList.map latinLowerChar)

/-- A dataset row with the given name and capacity, the other figures zero. -/
def sampleRecord (name : Option String) (kw : ℚ) : RegionRecord :=
  { region_name := name
    percent_qualified := 0
    count_qualified := 0
    total_area_sqft := 0
    kw_total := kw
    yearly_sunlight_kwh_total := 0
    carbon_offset_metric_tons := 0
    yearly_sunlight_kwh_f := 0
    yearly_sunlight_kwh_s := 0
    yearly_sunlight_kwh_w := 0
    yearly_sunlight_kwh_e := 0
    yearly_sunlight_kwh_n := 0
    install_size_kw_buckets_json := none }

/-- A small dataset: two rows named Chicago in different letter case, after a
row with another name and a row without a name, and a row whose name has a
letter outside `A`-`Z`. -/
def sampleData : List RegionRecord :=
  [sampleRecord (some "Evanston") 1, sampleRecord none 2, sampleRecord (some "CHICAGO") 3,
    sampleRecord (some "Chicago") 4, sampleRecord (some "MONTRÉAL") 5]

/-- An entry of `place.address_components`: its `long_name` and its list of
`types`. -/
structure AddressComponent where
  long_name : String
  types : List String
deriving DecidableEq

/-- The constant `regionName` of `handlePlaceChanged` (lines 127-129):
`place.address_components?.find((c) => c.types.includes("locality"))?.long_name`.
It is `undefined` (`none`) when `address_components` is absent and when no
component has the type `locality`. -/
def regionName (address_components : Option (List AddressComponent)) : Option String :=
  match address_components with
  | none => none
  | some components =>
    match components.find? (fun c => c.types.contains "locality") with
    | none => none
    | some c => some c.long_name

/-- The components of a place that has a locality. -/
def sampleComponents : List AddressComponent :=
  [{ long_name := "Cook County", types := ["administrative_area_level_2", "political"] },
    { long_name := "Chicago", types := ["locality", "political"] }]

/-- The components of a place without a locality. -/
def sampleComponentsNoLocality : List AddressComponent :=
  [{ long_name := "Cook County", types := ["administrative_area_level_2", "political"] },
    { long_name := "Illinois", types := ["administrative_area_level_1", "political"] }]

/-! ## Prediction requests and their responses (lines 136-149, 170-190) -/

/-- The handler that posted a prediction request. -/
inductive Origin where
  | place
  | month
deriving DecidableEq

/-- The events that touch `predictionResult`. -/
inductive Event where
  /-- `handlePlaceChanged` runs for a place with geometry and posts a request
  (line 137). -/
  | placeChanged
  /-- `handleMonthChange` runs (line 170); it posts a request when a place is
  selected (lines 175-186). -/
  | monthChanged
  /-- The response of request `req` arrives with `res.data.prediction`. -/
  | resolved (req : ℕ) (prediction : ℚ)
  /-- Request `req` fails. -/
  | rejected (req : ℕ)
deriving DecidableEq

/-- The part of the component state the two handlers share: the number of
requests posted so far (request `k` is the `k`-th one posted, from `0`), the
requests still awaiting a response, whether `selectedPlace` is set, and
`predictionResult`. -/
structure State where
  issued : ℕ
  pending : List (ℕ × Origin)
  selectedPlace : Bool
  predictionResult : Option ℚ
deriving DecidableEq

/-- The state after mounting: no request, no place, `predictionResult` is
`null` (lines 40, 45). -/
def initialState : State :=
  { issued := 0
    pending := []
    selectedPlace := false
    predictionResult := none }

/-- Posting a request from handler `o`. -/
def post (s : State) (o : Origin) : State :=
  { s with issued := s.issued + 1, pending := s.pending ++ [(s.issued, o)] }

/-- The continuation that runs when request `req` of handler `o` settles with
`result` (`some` prediction, or `none` for a failure): `setPredictionResult` is
called with it (lines 145, 148, 187, 188); `handlePlaceChanged` goes on to
`setSelectedPlace` (line 151). -/
def settle (s : State) (req : ℕ) (o : Origin) (result : Option ℚ) : State :=
  { s with
    pending := s.pending.filter (fun p => p.1 != req)
    selectedPlace := s.selectedPlace || decide (o = Origin.place)
    predictionResult := result }

/-- One event; `none` when the event cannot happen in `s` (a response for a
request that is not pending). -/
def step (s : State) : Event → Option State
  | Event.placeChanged => some (post s Origin.place)
  | Event.monthChanged => if s.selectedPlace then some (post s Origin.month) else some s
  | Event.resolved req prediction =>
    match s.pending.find? (fun p => p.1 == req) with
    | some (_, o) => some (settle s req o (some prediction))
    | none => none
  | Event.rejected req =>
    match s.pending.find? (fun p => p.1 == req) with
    | some (_, o) => some (settle s req o none)
    | none => none

/-- The step relation of the model. -/
def Step (s : State) (e : Event) (s' : State) : Prop :=
  step s e = some s'

/-- A sequence of events, in order. -/
def run (s : State) : List Event → Option State
  | [] => some s
  | e :: es =>
    match step s e with
    | some s' => run s' es
    | none => none

/-! ## Helper lemmas -/

theorem calculatorValues_of_guard (panelArea monthlyBill : ℚ) (predictionResult : Option ℚ)
    (hA : 0 < panelArea) (hB : 0 < monthlyBill) :
    calculatorValues panelArea monthlyBill predictionResult =
      some
        { monthlyUsage := monthlyBill / 0.15
          annualEnergy := panelArea * solarEnergyValue predictionResult * 365
          carbonOffset := (panelArea * solarEnergyValue predictionResult * 365 * 0.85) / 2000
          treeEquivalent :=
            Math.round
              (((panelArea * solarEnergyValue predictionResult * 365 * 0.85) / 2000 * 2000) / 48)
          monthlySavingKWh :=
            Math.min (panelArea * solarEnergyValue predictionResult * 365 / 12)
              (monthlyBill / 0.15)
          monthlySavingMoney :=
            Math.min (panelArea * solarEnergyValue predictionResult * 365 / 12)
              (monthlyBill / 0.15) * 0.15 } := by
  have hg : panelArea > 0 ∧ monthlyBill > 0 := ⟨hA, hB⟩
  simp only [calculatorValues, if_pos hg]

theorem calculatorValues_of_not_guard (panelArea monthlyBill : ℚ)
    (predictionResult : Option ℚ) (h : panelArea ≤ 0 ∨ monthlyBill ≤ 0) :
    calculatorValues panelArea monthlyBill predictionResult = none := by
  have hg : ¬ (panelArea > 0 ∧ monthlyBill > 0) := by
    rintro ⟨hA, hB⟩
    rcases h with h | h
    · exact absurd hA (not_lt.mpr h)
    · exact absurd hB (not_lt.mpr h)
  simp only [calculatorValues, if_neg hg]

theorem mathMin_eq_min (a b : ℚ) : Math.min a b = min a b := by
  unfold Math.min
  split_ifs with h
  · exact (min_eq_left h).symm
  · exact (min_eq_right (le_of_lt (not_le.mp h))).symm

theorem solarEnergyValue_of_ne_zero (p : ℚ) (hp : p ≠ 0) : solarEnergyValue (some p) = p := by
  simp [solarEnergyValue, hp]

theorem solarEnergyValue_none : solarEnergyValue none = 4.5 := rfl

theorem solarEnergyValue_fallback : solarEnergyValue none = solarEnergyValue (some 4.5) := by
  simp only [solarEnergyValue]
  norm_num

/-! ## Rounding to doubles -/

theorem log2Fuel_spec (fuel n : ℕ) (hn : n ≠ 0) (hf : n ≤ fuel) :
    2 ^ log2Fuel fuel n ≤ n ∧ n < 2 ^ (log2Fuel fuel n + 1) := by
  induction fuel generalizing n with
  | zero => omega
  | succ fuel ih =>
    unfold log2Fuel
    split_ifs with h
    · constructor
      · simp; omega
      · simp; omega
    · have h2 : n / 2 ≠ 0 := by omega
      have h3 : n / 2 ≤ fuel := by omega
      obtain ⟨ha, hb⟩ := ih (n / 2) h2 h3
      constructor
      · rw [pow_succ]; omega
      · rw [pow_succ]; omega

theorem log2_spec (n : ℕ) (hn : n ≠ 0) : 2 ^ log2 n ≤ n ∧ n < 2 ^ (log2 n + 1) :=
  log2Fuel_spec n n hn le_rfl

theorem roundHalfEven_sub_le (x : ℚ) : |(roundHalfEven x : ℚ) - x| ≤ 1 / 2 := by
  have h1 := Int.floor_le x
  have h2 := Int.lt_floor_add_one x
  unfold roundHalfEven
  simp only
  split_ifs with ha hb hc
  · rw [abs_le]; constructor <;> linarith
  · rw [abs_le]; push_cast; constructor <;> linarith
  · rw [abs_le]; constructor <;> linarith
  · rw [abs_le]; push_cast; constructor <;> linarith

theorem abs_eq_natAbs_div_den (x : ℚ) : |x| = (x.num.natAbs : ℚ) / (x.den : ℚ) := by
  have hden : (0 : ℚ) < (x.den : ℚ) := by exact_mod_cast x.den_pos
  conv_lhs => rw [← Rat.num_div_den x]
  rw [abs_div, abs_of_pos hden, Nat.cast_natAbs, Int.cast_abs]

theorem binade_spec (x : ℚ) (hx : x ≠ 0) :
    (2 : ℚ) ^ binade x ≤ |x| ∧ |x| < (2 : ℚ) ^ (binade x + 1) := by
  have hnum : x.num.natAbs ≠ 0 := by
    intro h
    exact hx (Rat.zero_of_num_zero (Int.natAbs_eq_zero.mp h))
  obtain ⟨hn1, hn2⟩ := log2_spec x.num.natAbs hnum
  obtain ⟨hd1, hd2⟩ := log2_spec x.den x.den_nz
  have hn1' : (2 : ℚ) ^ log2 x.num.natAbs ≤ (x.num.natAbs : ℚ) := by exact_mod_cast hn1
  have hn2' : (x.num.natAbs : ℚ) < (2 : ℚ) ^ (log2 x.num.natAbs + 1) := by exact_mod_cast hn2
  have hd1' : (2 : ℚ) ^ log2 x.den ≤ (x.den : ℚ) := by exact_mod_cast hd1
  have hd2' : (x.den : ℚ) < (2 : ℚ) ^ (log2 x.den + 1) := by exact_mod_cast hd2
  have hden : (0 : ℚ) < (x.den : ℚ) := by exact_mod_cast x.den_pos
  have hpa : (0 : ℚ) < (2 : ℚ) ^ log2 x.num.natAbs := by positivity
  have hpb : (0 : ℚ) < (2 : ℚ) ^ log2 x.den := by positivity
  have habs := abs_eq_natAbs_div_den x
  have he : (2 : ℚ) ^ ((log2 x.num.natAbs : ℤ) - (log2 x.den : ℤ)) =
      (2 : ℚ) ^ log2 x.num.natAbs / (2 : ℚ) ^ log2 x.den := by
    rw [zpow_sub₀ (by norm_num : (2 : ℚ) ≠ 0), zpow_natCast, zpow_natCast]
  unfold binade
  simp only
  split_ifs with h
  · refine ⟨h, ?_⟩
    rw [zpow_add_one₀ (by norm_num : (2 : ℚ) ≠ 0), he, habs, div_mul_eq_mul_div,
      div_lt_div_iff₀ hden hpb]
    rw [pow_succ] at hn2'
    nlinarith
  · constructor
    · rw [zpow_sub_one₀ (by norm_num : (2 : ℚ) ≠ 0), he, habs, div_mul_eq_mul_div,
        div_le_div_iff₀ hpb hden]
      rw [pow_succ] at hd2'
      have : (2 : ℚ)⁻¹ = 1 / 2 := by norm_num
      rw [this]
      nlinarith
    · rw [sub_add_cancel]
      exact not_le.mp h

theorem fl_sub_le (x : ℚ) : |fl x - x| ≤ |x| * 2 ^ (-53 : ℤ) := by
  by_cases hx : x = 0
  · simp [fl, hx]
  · obtain ⟨hlo, _⟩ := binade_spec x hx
    have hq : (0 : ℚ) < (2 : ℚ) ^ (binade x - 52) := by positivity
    have hr := roundHalfEven_sub_le (x / 2 ^ (binade x - 52))
    have hfl : fl x - x =
        ((roundHalfEven (x / 2 ^ (binade x - 52)) : ℚ) - x / 2 ^ (binade x - 52)) *
          2 ^ (binade x - 52) := by
      simp only [fl, if_neg hx]
      field_simp
    have hsplit : (2 : ℚ) ^ (binade x - 52) * (1 / 2) = (2 : ℚ) ^ binade x * 2 ^ (-53 : ℤ) := by
      rw [show binade x - 52 = binade x + (-52) by ring,
        zpow_add₀ (by norm_num : (2 : ℚ) ≠ 0)]
      norm_num
      ring
    rw [hfl, abs_mul, abs_of_pos hq]
    calc |(roundHalfEven (x / 2 ^ (binade x - 52)) : ℚ) - x / 2 ^ (binade x - 52)| *
          2 ^ (binade x - 52)
        ≤ 1 / 2 * 2 ^ (binade x - 52) := mul_le_mul_of_nonneg_right hr hq.le
      _ = (2 : ℚ) ^ binade x * 2 ^ (-53 : ℤ) := by rw [mul_comm, hsplit]
      _ ≤ |x| * 2 ^ (-53 : ℤ) := mul_le_mul_of_nonneg_right hlo (by positivity)

theorem fl_le_of_nonneg (x : ℚ) (hx : 0 ≤ x) : fl x ≤ x * (1 + 2 ^ (-53 : ℤ)) := by
  have h := fl_sub_le x
  rw [abs_of_nonneg hx, abs_le] at h
  linarith [h.2]

theorem fl_nonpos_of_nonpos (x : ℚ) (hx : x ≤ 0) : fl x ≤ 0 := by
  have h := fl_sub_le x
  rw [abs_of_nonpos hx, abs_le] at h
  have hu : (2 : ℚ) ^ (-53 : ℤ) ≤ 1 := by norm_num
  nlinarith [h.2]

theorem fl_pos (x : ℚ) (hx : 0 < x) : 0 < fl x := by
  have h := fl_sub_le x
  rw [abs_of_pos hx, abs_le] at h
  have hu : (2 : ℚ) ^ (-53 : ℤ) < 1 := by norm_num
  nlinarith [h.1]

theorem calculatorValuesDouble_of_guard (panelArea monthlyBill : ℚ)
    (predictionResult : Option ℚ) (hA : 0 < panelArea) (hB : 0 < monthlyBill) :
    calculatorValuesDouble panelArea monthlyBill predictionResult =
      some
        { monthlyUsage := fdiv monthlyBill (fl 0.15)
          annualEnergy := fmul (fmul panelArea (solarEnergyValue predictionResult)) 365
          carbonOffset :=
            fdiv (fmul (fmul (fmul panelArea (solarEnergyValue predictionResult)) 365) (fl 0.85))
              2000
          treeEquivalent :=
            Math.round
              (fdiv
                (fmul
                  (fdiv
                    (fmul (fmul (fmul panelArea (solarEnergyValue predictionResult)) 365)
                      (fl 0.85))
                    2000)
                  2000)
                48)
          monthlySavingKWh :=
            Math.min (fdiv (fmul (fmul panelArea (solarEnergyValue predictionResult)) 365) 12)
              (fdiv monthlyBill (fl 0.15))
          monthlySavingMoney :=
            fmul
              (Math.min (fdiv (fmul (fmul panelArea (solarEnergyValue predictionResult)) 365) 12)
                (fdiv monthlyBill (fl 0.15)))
              (fl 0.15) } := by
  have hg : panelArea > 0 ∧ monthlyBill > 0 := ⟨hA, hB⟩
  simp only [calculatorValuesDouble, if_pos hg]

/-! ## The calculator -/

/-- C1 (the code at the failing input): with panelArea 25, monthlyBill 150 and
a prediction of 0 the effect computes annualEnergy 41062.5, in exact
arithmetic and on doubles alike, which is not 25 * 0 * 365. -/
theorem annualEnergy_at_zero_prediction :
    (∃ v, calculatorValues 25 150 (some 0) = some v ∧
      v.annualEnergy = 41062.5 ∧ v.annualEnergy ≠ 25 * 0 * 365) ∧
      ∃ v, calculatorValuesDouble 25 150 (some 0) = some v ∧
        v.annualEnergy = 41062.5 ∧ v.annualEnergy ≠ 25 * 0 * 365 := by
  have hd : fmul (fmul 25 (solarEnergyValue (some 0))) 365 = 41062.5 := by decide!
  refine ⟨⟨_, calculatorValues_of_guard 25 150 (some 0) (by norm_num) (by norm_num), ?_, ?_⟩,
    ⟨_, calculatorValuesDouble_of_guard 25 150 (some 0) (by norm_num) (by norm_num), ?_, ?_⟩⟩
  · simp only [solarEnergyValue]
    norm_num
  · simp only [solarEnergyValue]
    norm_num
  · exact hd
  · show fmul (fmul 25 (solarEnergyValue (some 0))) 365 ≠ 25 * 0 * 365
    rw [hd]
    norm_num

/-- C2: for every panelArea > 0 and monthlyBill > 0 the effect produces output
without a prediction, and that output (the computed values and the stored
results) equals the output for a prediction of 4.5; this covers the state
after mounting and every state reached by a failed prediction request, which
sets predictionResult to null whatever it held before. -/
theorem fallback_when_no_prediction (panelArea monthlyBill : ℚ) (hA : 0 < panelArea)
    (hB : 0 < monthlyBill) :
    (calculatorValues panelArea monthlyBill none).isSome = true ∧
      calculatorValues panelArea monthlyBill none =
        calculatorValues panelArea monthlyBill (some 4.5) ∧
      (∀ old : CalculatedResults,
        calculatorEffect panelArea monthlyBill none old =
          calculatorEffect panelArea monthlyBill (some 4.5) old) ∧
      calculatorValues panelArea monthlyBill initialState.predictionResult =
        calculatorValues panelArea monthlyBill (some 4.5) ∧
      (∀ (s s' : State) (req : ℕ), Step s (Event.rejected req) s' →
        s'.predictionResult = none ∧
          calculatorValues panelArea monthlyBill s'.predictionResult =
            calculatorValues panelArea monthlyBill (some 4.5)) := by
  have hEq : calculatorValues panelArea monthlyBill none =
      calculatorValues panelArea monthlyBill (some 4.5) := by
    rw [calculatorValues_of_guard _ _ _ hA hB, calculatorValues_of_guard _ _ _ hA hB,
      solarEnergyValue_fallback]
  refine ⟨?_, hEq, ?_, hEq, ?_⟩
  · rw [calculatorValues_of_guard _ _ _ hA hB]
    rfl
  · intro old
    simp only [calculatorEffect, hEq]
  · intro s s' req hstep
    have hnone : s'.predictionResult = none := by
      simp only [Step, step] at hstep
      split at hstep
      · injection hstep with h
        rw [← h]
        rfl
      · exact absurd hstep (by simp)
    exact ⟨hnone, by rw [hnone]; exact hEq⟩

/-- C2 witness: compute(25, 150, absent) equals compute(25, 150, 4.5), and
both are the values 41062.5, 17.4515625, 727, 1000 and 150. -/
theorem fallback_when_no_prediction_witness :
    calculatorValues 25 150 none =
        some
          { monthlyUsage := 1000
            annualEnergy := 41062.5
            carbonOffset := 17.4515625
            treeEquivalent := 727
            monthlySavingKWh := 1000
            monthlySavingMoney := 150 } ∧
      calculatorValues 25 150 none = calculatorValues 25 150 (some 4.5) ∧
      calculatorEffect 25 150 none initialCalculatedResults =
        calculatorEffect 25 150 (some 4.5) initialCalculatedResults :=
  ⟨by decide!,
    (fallback_when_no_prediction 25 150 (by norm_num) (by norm_num)).2.1,
    (fallback_when_no_prediction 25 150 (by norm_num) (by norm_num)).2.2.1
      initialCalculatedResults⟩

/-- C3: for every input with panelArea ≤ 0 or monthlyBill ≤ 0, whatever the
prediction, the effect produces no output: its guarded block is skipped, the
stored calculatedResults are exactly what they were before, the results panel
is not rendered and the "enter panel area and monthly bill" message is. -/
theorem no_output_when_guard_fails (panelArea monthlyBill : ℚ)
    (predictionResult : Option ℚ) (old : CalculatedResults)
    (h : panelArea ≤ 0 ∨ monthlyBill ≤ 0) :
    calculatorValues panelArea monthlyBill predictionResult = none ∧
      calculatorEffect panelArea monthlyBill predictionResult old = old ∧
      showResultsPanel panelArea monthlyBill = false ∧
      showEnterMessage panelArea monthlyBill = true := by
  have hnone := calculatorValues_of_not_guard panelArea monthlyBill predictionResult h
  have hshow : showResultsPanel panelArea monthlyBill = false := by
    unfold showResultsPanel
    rcases h with h | h
    · simp [not_lt.mpr h]
    · simp [not_lt.mpr h]
  refine ⟨hnone, ?_, hshow, ?_⟩
  · simp only [calculatorEffect, hnone]
  · unfold showEnterMessage
    unfold showResultsPanel at hshow
    rw [hshow]
    rfl

/-- C3 witness: the inputs (0, 150, 4.5) give no output and leave the initial
results in place. -/
theorem no_output_when_guard_fails_witness :
    ((0 : ℚ) ≤ 0 ∨ (150 : ℚ) ≤ 0) ∧
      calculatorValues 0 150 (some 4.5) = none ∧
      calculatorEffect 0 150 (some 4.5) initialCalculatedResults = initialCalculatedResults ∧
      showResultsPanel 0 150 = false ∧
      showEnterMessage 0 150 = true :=
  ⟨Or.inl le_rfl,
    no_output_when_guard_fails 0 150 (some 4.5) initialCalculatedResults (Or.inl le_rfl)⟩

/-- C4 (amended): whenever the effect produces output (panelArea > 0,
monthlyBill > 0, any prediction or none), on doubles monthlySavingKWh is at
most the monthly usage, the double monthlyBill / 0.15, and monthlySavingMoney,
the double monthlySavingKWh * 0.15, is at most monthlyBill * (1 + 2⁻⁵³)²: it
exceeds monthlyBill by rounding at most. -/
theorem saving_capped_up_to_rounding (panelArea monthlyBill : ℚ)
    (predictionResult : Option ℚ) (hA : 0 < panelArea) (hB : 0 < monthlyBill) :
    ∃ v, calculatorValuesDouble panelArea monthlyBill predictionResult = some v ∧
      v.monthlyUsage = fdiv monthlyBill (fl 0.15) ∧
      v.monthlySavingKWh ≤ v.monthlyUsage ∧
      v.monthlySavingMoney = fmul v.monthlySavingKWh (fl 0.15) ∧
      v.monthlySavingMoney ≤ monthlyBill * (1 + 2 ^ (-53 : ℤ)) ^ 2 := by
  refine ⟨_, calculatorValuesDouble_of_guard panelArea monthlyBill predictionResult hA hB,
    rfl, ?_, rfl, ?_⟩
  · show Math.min _ _ ≤ _
    rw [mathMin_eq_min]
    exact min_le_right _ _
  · show fmul (Math.min _ (fdiv monthlyBill (fl 0.15))) (fl 0.15) ≤ _
    rw [mathMin_eq_min]
    have hc : 0 < fl 0.15 := fl_pos 0.15 (by norm_num)
    have hu : (0 : ℚ) < 1 + 2 ^ (-53 : ℤ) := by positivity
    have hq : 0 ≤ monthlyBill / fl 0.15 := (div_pos hB hc).le
    have husage : fdiv monthlyBill (fl 0.15) ≤ monthlyBill / fl 0.15 * (1 + 2 ^ (-53 : ℤ)) :=
      fl_le_of_nonneg _ hq
    have hkwh := min_le_right
      (fdiv (fmul (fmul panelArea (solarEnergyValue predictionResult)) 365) 12)
      (fdiv monthlyBill (fl 0.15))
    have hbound : 0 ≤ monthlyBill * (1 + 2 ^ (-53 : ℤ)) ^ 2 := by positivity
    generalize min (fdiv (fmul (fmul panelArea (solarEnergyValue predictionResult)) 365) 12)
      (fdiv monthlyBill (fl 0.15)) = kwh at hkwh
    unfold fmul
    rcases le_or_lt (kwh * fl 0.15) 0 with hz | hz
    · exact le_trans (fl_nonpos_of_nonpos _ hz) hbound
    · have h1 := fl_le_of_nonneg _ hz.le
      have h2 : kwh * fl 0.15 ≤ monthlyBill / fl 0.15 * (1 + 2 ^ (-53 : ℤ)) * fl 0.15 :=
        mul_le_mul_of_nonneg_right (le_trans hkwh husage) hc.le
      have h3 : monthlyBill / fl 0.15 * (1 + 2 ^ (-53 : ℤ)) * fl 0.15 =
          monthlyBill * (1 + 2 ^ (-53 : ℤ)) := by
        field_simp
        ring
      calc fl (kwh * fl 0.15) ≤ kwh * fl 0.15 * (1 + 2 ^ (-53 : ℤ)) := h1
        _ ≤ monthlyBill * (1 + 2 ^ (-53 : ℤ)) * (1 + 2 ^ (-53 : ℤ)) :=
            mul_le_mul_of_nonneg_right (h3 ▸ h2) hu.le
        _ = monthlyBill * (1 + 2 ^ (-53 : ℤ)) ^ 2 := by ring

/-- C4 witness: with panelArea 25, monthlyBill 50 and no prediction the
doubles are monthlyUsage 333.33333333333337 and monthlySavingMoney
50.00000000000001, within the bound. -/
theorem saving_capped_up_to_rounding_witness :
    calculatorValuesDouble 25 50 none =
        some
          { monthlyUsage := 2932031007402667 / 8796093022208
            annualEnergy := 41062.5
            carbonOffset := 2456089074126029 / 140737488355328
            treeEquivalent := 727
            monthlySavingKWh := 2932031007402667 / 8796093022208
            monthlySavingMoney := 7036874417766401 / 140737488355328 } ∧
      ∃ v, calculatorValuesDouble 25 50 none = some v ∧
        v.monthlyUsage = fdiv 50 (fl 0.15) ∧
        v.monthlySavingKWh ≤ v.monthlyUsage ∧
        v.monthlySavingMoney = fmul v.monthlySavingKWh (fl 0.15) ∧
        v.monthlySavingMoney ≤ 50 * (1 + 2 ^ (-53 : ℤ)) ^ 2 :=
  ⟨by decide!, saving_capped_up_to_rounding 25 50 none (by norm_num) (by norm_num)⟩

/-- C4 counterexample: with panelArea 25, monthlyBill 50 and no prediction the
code's doubles give monthlySavingMoney = 50 + 2⁻⁴⁷ (50.00000000000001), which
is more than monthlyBill, although monthlySavingKWh is the monthly usage. -/
theorem saving_exceeds_bill_on_doubles :
    ∃ v, calculatorValuesDouble 25 50 none = some v ∧
      v.monthlySavingKWh = v.monthlyUsage ∧
      v.monthlySavingMoney = 50 + 2 ^ (-47 : ℤ) ∧
      50 < v.monthlySavingMoney := by
  have h : calculatorValuesDouble 25 50 none =
      some
        { monthlyUsage := 2932031007402667 / 8796093022208
          annualEnergy := 41062.5
          carbonOffset := 2456089074126029 / 140737488355328
          treeEquivalent := 727
          monthlySavingKWh := 2932031007402667 / 8796093022208
          monthlySavingMoney := 7036874417766401 / 140737488355328 } := by decide!
  refine ⟨_, h, rfl, ?_, ?_⟩
  · norm_num
  · norm_num

/-- C8 (amended): for every monthlyBill > 0, every predicted energy value that
is not negative (or none) and all panel areas 0 < a1 ≤ a2, the annualEnergy
computed for a2 is not less than the one computed for a1. -/
theorem annualEnergy_monotone_in_area (monthlyBill a1 a2 : ℚ)
    (predictionResult : Option ℚ) (hB : 0 < monthlyBill) (h1 : 0 < a1) (h12 : a1 ≤ a2)
    (hp : ∀ p, predictionResult = some p → 0 ≤ p) :
    ∃ v1 v2, calculatorValues a1 monthlyBill predictionResult = some v1 ∧
      calculatorValues a2 monthlyBill predictionResult = some v2 ∧
      v1.annualEnergy ≤ v2.annualEnergy := by
  have h2 : 0 < a2 := lt_of_lt_of_le h1 h12
  have hs : 0 ≤ solarEnergyValue predictionResult := by
    cases predictionResult with
    | none => simp only [solarEnergyValue]; norm_num
    | some p =>
      simp only [solarEnergyValue]
      split_ifs
      · norm_num
      · exact hp p rfl
  refine ⟨_, _, calculatorValues_of_guard a1 monthlyBill predictionResult h1 hB,
    calculatorValues_of_guard a2 monthlyBill predictionResult h2 hB, ?_⟩
  show a1 * solarEnergyValue predictionResult * 365 ≤ a2 * solarEnergyValue predictionResult * 365
  have := mul_le_mul_of_nonneg_right h12 hs
  linarith

/-- C8 witness: panel areas 10 ≤ 25 with bill 150 and prediction 4.5. -/
theorem annualEnergy_monotone_in_area_witness :
    ∃ v1 v2, calculatorValues 10 150 (some 4.5) = some v1 ∧
      calculatorValues 25 150 (some 4.5) = some v2 ∧
      v1.annualEnergy ≤ v2.annualEnergy :=
  annualEnergy_monotone_in_area 150 10 25 (some 4.5) (by norm_num) (by norm_num) (by norm_num)
    (by
      intro p h
      injection h with h
      rw [← h]
      norm_num)

/-- C8 counterexample: with monthlyBill 150 and a prediction of -1, panel area
1 gives annualEnergy -365 and the larger panel area 2 gives -730. -/
theorem annualEnergy_not_monotone_negative_prediction :
    ∃ v1 v2, calculatorValues 1 150 (some (-1)) = some v1 ∧
      calculatorValues 2 150 (some (-1)) = some v2 ∧
      v1.annualEnergy = -365 ∧ v2.annualEnergy = -730 ∧
      v2.annualEnergy < v1.annualEnergy := by
  refine ⟨_, _, calculatorValues_of_guard 1 150 (some (-1)) (by norm_num) (by norm_num),
    calculatorValues_of_guard 2 150 (some (-1)) (by norm_num) (by norm_num), ?_, ?_, ?_⟩ <;>
    simp only [solarEnergyValue] <;> norm_num

/-! ## Month features -/

theorem indexOfFrom_of_not_mem (x : String) (xs : List String) (i : ℕ) (h : x ∉ xs) :
    indexOfFrom x xs i = -1 := by
  induction xs generalizing i with
  | nil => rfl
  | cons y ys ih =>
    have hy : y ≠ x := fun e => h (by simp [e])
    have hys : x ∉ ys := fun e => h (List.mem_cons_of_mem y e)
    simp only [indexOfFrom, if_neg hy]
    exact ih (i + 1) hys

theorem indexOf_MONTHS_get (i : Fin MONTHS.length) :
    indexOf MONTHS (MONTHS.get i) = ((i : ℕ) : ℤ) := by
  revert i
  decide

theorem angleDouble_zero : angleDouble 0 = 0 := by decide!

theorem angleDouble_six : angleDouble 6 = Math.PI := by decide!

theorem angleDouble_neg_one :
    angleDouble (-1) = -(4716158501352293 / 9007199254740992) := by decide!

theorem angleDouble_near_rational (i : Fin MONTHS.length) :
    angleDouble ((i : ℕ) : ℤ) - 1 / 10 ^ 15 ≤
        2 * (314159265358979323846 / 10 ^ 20) * ((i : ℕ) : ℚ) / 12 ∧
      2 * (314159265358979323847 / 10 ^ 20) * ((i : ℕ) : ℚ) / 12 ≤
        angleDouble ((i : ℕ) : ℤ) + 1 / 10 ^ 15 := by
  revert i
  decide!

theorem pi_gt_rational : ((314159265358979323846 / 10 ^ 20 : ℚ) : ℝ) < Real.pi := by
  have h := Real.pi_gt_d20
  norm_num at h ⊢
  linarith

theorem pi_lt_rational : Real.pi < ((314159265358979323847 / 10 ^ 20 : ℚ) : ℝ) := by
  have h := Real.pi_lt_d20
  norm_num at h ⊢
  linarith

theorem angleDouble_near (i : Fin MONTHS.length) :
    |((angleDouble ((i : ℕ) : ℤ) : ℚ) : ℝ) - 2 * Real.pi * ((i : ℕ) : ℝ) / 12| ≤ 1 / 10 ^ 15 := by
  obtain ⟨h1, h2⟩ := angleDouble_near_rational i
  have h1' : ((angleDouble ((i : ℕ) : ℤ) - 1 / 10 ^ 15 : ℚ) : ℝ) ≤
      ((2 * (314159265358979323846 / 10 ^ 20) * ((i : ℕ) : ℚ) / 12 : ℚ) : ℝ) :=
    Rat.cast_le.mpr h1
  have h2' : ((2 * (314159265358979323847 / 10 ^ 20) * ((i : ℕ) : ℚ) / 12 : ℚ) : ℝ) ≤
      ((angleDouble ((i : ℕ) : ℤ) + 1 / 10 ^ 15 : ℚ) : ℝ) :=
    Rat.cast_le.mpr h2
  have hi : (0 : ℝ) ≤ ((i : ℕ) : ℝ) := Nat.cast_nonneg _
  have hlo := pi_gt_rational
  have hhi := pi_lt_rational
  push_cast at h1' h2' hlo hhi
  rw [abs_le]
  constructor
  · nlinarith
  · nlinarith

theorem abs_sin_le_abs (t : ℝ) : |Real.sin t| ≤ |t| := by
  rcases le_total 0 t with h | h
  · rw [abs_of_nonneg h, abs_le]
    constructor
    · have := Real.neg_one_le_sin t
      rcases le_total t 1 with h1 | h1
      · have hs : 0 ≤ Real.sin t :=
          Real.sin_nonneg_of_nonneg_of_le_pi h (le_trans h1 (by linarith [Real.pi_gt_three]))
        linarith
      · linarith
    · exact Real.sin_le h
  · have h' : 0 ≤ -t := by linarith
    have hs := Real.sin_le h'
    rw [Real.sin_neg] at hs
    rw [abs_of_nonpos h, abs_le]
    constructor
    · linarith
    · have := Real.sin_le_one t
      rcases le_total (-t) 1 with h1 | h1
      · have hs0 : 0 ≤ Real.sin (-t) :=
          Real.sin_nonneg_of_nonneg_of_le_pi h' (le_trans h1 (by linarith [Real.pi_gt_three]))
        rw [Real.sin_neg] at hs0
        linarith
      · linarith

theorem abs_sin_sub_sin_le (x y : ℝ) : |Real.sin x - Real.sin y| ≤ |x - y| := by
  rw [Real.sin_sub_sin, abs_mul, abs_mul]
  have h1 := abs_sin_le_abs ((x - y) / 2)
  have h2 := Real.abs_cos_le_one ((x + y) / 2)
  have h3 : |(x - y) / 2| = |x - y| / 2 := by
    rw [abs_div, abs_of_pos (by norm_num : (0 : ℝ) < 2)]
  rw [h3] at h1
  have h0 : (0 : ℝ) ≤ |Real.sin ((x - y) / 2)| := abs_nonneg _
  have hc0 : (0 : ℝ) ≤ |Real.cos ((x + y) / 2)| := abs_nonneg _
  rw [abs_of_pos (by norm_num : (0 : ℝ) < 2)]
  nlinarith

theorem abs_cos_sub_cos_le (x y : ℝ) : |Real.cos x - Real.cos y| ≤ |x - y| := by
  rw [Real.cos_sub_cos, abs_mul, abs_mul, abs_neg]
  have h1 := abs_sin_le_abs ((x - y) / 2)
  have h2 := Real.abs_sin_le_one ((x + y) / 2)
  have h3 : |(x - y) / 2| = |x - y| / 2 := by
    rw [abs_div, abs_of_pos (by norm_num : (0 : ℝ) < 2)]
  rw [h3] at h1
  have h0 : (0 : ℝ) ≤ |Real.sin ((x - y) / 2)| := abs_nonneg _
  have hc0 : (0 : ℝ) ≤ |Real.sin ((x + y) / 2)| := abs_nonneg _
  rw [abs_of_pos (by norm_num : (0 : ℝ) < 2)]
  nlinarith

theorem angle_of_index_neg_one :
    (2 * Real.pi * (((-1 : ℤ)) : ℝ)) / 12 = -(Real.pi / 6) := by
  push_cast
  ring

theorem getMonthFeaturesDouble_Jan : getMonthFeaturesDouble "Jan" = { sin := 0, cos := 1 } := by
  have hi : indexOf MONTHS "Jan" = 0 := by decide
  simp [getMonthFeaturesDouble, hi, angleDouble_zero]

theorem sin_angleDouble_neg_one_neg : Real.sin ((angleDouble (-1) : ℚ) : ℝ) < 0 := by
  rw [angleDouble_neg_one]
  apply Real.sin_neg_of_neg_of_neg_pi_lt
  · norm_num
  · have := Real.pi_gt_three
    push_cast
    norm_num
    linarith

/-- C5 (amended): for every string that is not one of the 12 month labels,
getMonthFeatures treats the index as -1, the value indexOf returns: the pair
is the sine and cosine of the angle 2π·(-1)/12 (on doubles, of the angle
(2 * Math.PI * -1) / 12), which is not the pair returned for "Jan". -/
theorem getMonthFeatures_unknown_label (monthLabel : String) (h : monthLabel ∉ MONTHS) :
    indexOf MONTHS monthLabel = -1 ∧
      getMonthFeatures monthLabel =
        { sin := Real.sin (2 * Real.pi * (((-1 : ℤ)) : ℝ) / 12)
          cos := Real.cos (2 * Real.pi * (((-1 : ℤ)) : ℝ) / 12) } ∧
      getMonthFeaturesDouble monthLabel =
        { sin := Real.sin ((angleDouble (-1) : ℚ) : ℝ)
          cos := Real.cos ((angleDouble (-1) : ℚ) : ℝ) } ∧
      getMonthFeaturesDouble monthLabel ≠ getMonthFeaturesDouble "Jan" := by
  have hi : indexOf MONTHS monthLabel = -1 := indexOfFrom_of_not_mem monthLabel MONTHS 0 h
  have hD : getMonthFeaturesDouble monthLabel =
      { sin := Real.sin ((angleDouble (-1) : ℚ) : ℝ)
        cos := Real.cos ((angleDouble (-1) : ℚ) : ℝ) } := by
    simp only [getMonthFeaturesDouble, hi]
  refine ⟨hi, ?_, hD, ?_⟩
  · simp only [getMonthFeatures, hi]
  · rw [hD, getMonthFeaturesDouble_Jan]
    intro he
    have hs := congrArg FeaturePair.sin he
    exact absurd hs (ne_of_lt sin_angleDouble_neg_one_neg)

/-- C5 witness: the string "Foo" is not a month label. -/
theorem getMonthFeatures_unknown_label_witness :
    "Foo" ∉ MONTHS ∧
      indexOf MONTHS "Foo" = -1 ∧
      getMonthFeatures "Foo" =
        { sin := Real.sin (2 * Real.pi * (((-1 : ℤ)) : ℝ) / 12)
          cos := Real.cos (2 * Real.pi * (((-1 : ℤ)) : ℝ) / 12) } ∧
      getMonthFeaturesDouble "Foo" =
        { sin := Real.sin ((angleDouble (-1) : ℚ) : ℝ)
          cos := Real.cos ((angleDouble (-1) : ℚ) : ℝ) } ∧
      getMonthFeaturesDouble "Foo" ≠ getMonthFeaturesDouble "Jan" :=
  ⟨by decide, getMonthFeatures_unknown_label "Foo" (by decide)⟩

/-- C5 counterexample: "Foo" is not a month label, yet the sine returned for
it is negative, on doubles and over the reals, not 0; the pair differs from
the pair (0, 1) returned for "Jan". -/
theorem getMonthFeatures_unknown_label_not_Jan :
    "Foo" ∉ MONTHS ∧
      (getMonthFeaturesDouble "Foo").sin < 0 ∧
      (getMonthFeatures "Foo").sin < 0 ∧
      getMonthFeaturesDouble "Jan" = { sin := 0, cos := 1 } ∧
      getMonthFeaturesDouble "Foo" ≠ getMonthFeaturesDouble "Jan" := by
  have hmem : "Foo" ∉ MONTHS := by decide
  have hi : indexOf MONTHS "Foo" = -1 := by decide
  have hD : (getMonthFeaturesDouble "Foo").sin < 0 := by
    simp only [getMonthFeaturesDouble, hi]
    exact sin_angleDouble_neg_one_neg
  have hR : (getMonthFeatures "Foo").sin < 0 := by
    simp only [getMonthFeatures, hi, angle_of_index_neg_one, Real.sin_neg,
      Real.sin_pi_div_six]
    norm_num
  refine ⟨hmem, hD, hR, getMonthFeaturesDouble_Jan, ?_⟩
  intro he
  have hs : (getMonthFeaturesDouble "Foo").sin = (getMonthFeaturesDouble "Jan").sin := by
    rw [he]
  rw [getMonthFeaturesDouble_Jan] at hs
  exact absurd hs (ne_of_lt hD)

theorem sin_PI_bounds :
    (12 : ℝ) / 10 ^ 17 < Real.sin ((Math.PI : ℚ) : ℝ) ∧
      Real.sin ((Math.PI : ℚ) : ℝ) < 13 / 10 ^ 17 := by
  have hlo := pi_gt_rational
  have hhi := pi_lt_rational
  have hPI : ((Math.PI : ℚ) : ℝ) = 884279719003555 / 281474976710656 := by
    simp only [Math.PI]
    push_cast
    norm_num
  push_cast at hlo hhi
  have hd0 : 0 < Real.pi - ((Math.PI : ℚ) : ℝ) := by
    rw [hPI]
    norm_num at hlo ⊢
    linarith
  have hd1 : Real.pi - ((Math.PI : ℚ) : ℝ) < 1 / 10 := by
    rw [hPI]
    norm_num at hhi ⊢
    linarith
  have hsin : Real.sin ((Math.PI : ℚ) : ℝ) = Real.sin (Real.pi - ((Math.PI : ℚ) : ℝ)) := by
    rw [Real.sin_pi_sub]
  rw [hsin]
  have h1 := Real.sin_lt hd0
  have h2 := Real.sin_gt_sub_cube hd0 (by linarith)
  have hsq : (Real.pi - ((Math.PI : ℚ) : ℝ)) ^ 3 ≤ (Real.pi - ((Math.PI : ℚ) : ℝ)) / 100 := by
    have : (Real.pi - ((Math.PI : ℚ) : ℝ)) ^ 2 ≤ 1 / 100 := by nlinarith
    nlinarith
  have hdlo : (1224 : ℝ) / 10 ^ 19 < Real.pi - ((Math.PI : ℚ) : ℝ) := by
    rw [hPI]
    norm_num at hlo ⊢
    linarith
  have hdhi : Real.pi - ((Math.PI : ℚ) : ℝ) < 1225 / 10 ^ 19 := by
    rw [hPI]
    norm_num at hhi ⊢
    linarith
  constructor
  · norm_num at hdlo ⊢
    linarith
  · norm_num at hdhi ⊢
    linarith

theorem cos_PI_bounds :
    -1 ≤ Real.cos ((Math.PI : ℚ) : ℝ) ∧ Real.cos ((Math.PI : ℚ) : ℝ) ≤ -1 + 1 / 10 ^ 30 := by
  have hlo := pi_gt_rational
  have hhi := pi_lt_rational
  have hPI : ((Math.PI : ℚ) : ℝ) = 884279719003555 / 281474976710656 := by
    simp only [Math.PI]
    push_cast
    norm_num
  push_cast at hlo hhi
  have hd0 : 0 < Real.pi - ((Math.PI : ℚ) : ℝ) := by
    rw [hPI]
    norm_num at hlo ⊢
    linarith
  have hdhi : Real.pi - ((Math.PI : ℚ) : ℝ) < 1 / 10 ^ 15 := by
    rw [hPI]
    norm_num at hhi ⊢
    linarith
  have hcos : Real.cos ((Math.PI : ℚ) : ℝ) = -Real.cos (Real.pi - ((Math.PI : ℚ) : ℝ)) := by
    rw [Real.cos_pi_sub, neg_neg]
  refine ⟨Real.neg_one_le_cos _, ?_⟩
  rw [hcos]
  have h := Real.one_sub_sq_div_two_le_cos (x := Real.pi - ((Math.PI : ℚ) : ℝ))
  have hsq : (Real.pi - ((Math.PI : ℚ) : ℝ)) ^ 2 ≤ (1 / 10 ^ 15) ^ 2 := by
    apply sq_le_sq'
    · linarith
    · exact hdhi.le
  norm_num at hsq ⊢
  linarith

/-- C6 (amended): MONTHS holds 12 labels, and for the label at position i
(Jan = 0 up to Dec = 11) getMonthFeatures returns the sine and cosine of the
double angle (2 * Math.PI * i) / 12, which is within 10⁻¹⁵ of 2π·i/12, so
that sin and cos are within 10⁻¹⁵ of sin (2π·i/12) and cos (2π·i/12); "Jan"
gives (0, 1) exactly; for "Jul" the angle is Math.PI, whose sine lies between
1.2·10⁻¹⁶ and 1.3·10⁻¹⁶ and whose cosine lies between -1 and -1 + 10⁻³⁰. -/
theorem getMonthFeaturesDouble_of_label :
    MONTHS.length = 12 ∧
      (∀ i : Fin MONTHS.length,
        getMonthFeaturesDouble (MONTHS.get i) =
            { sin := Real.sin ((angleDouble ((i : ℕ) : ℤ) : ℚ) : ℝ)
              cos := Real.cos ((angleDouble ((i : ℕ) : ℤ) : ℚ) : ℝ) } ∧
          |((angleDouble ((i : ℕ) : ℤ) : ℚ) : ℝ) - 2 * Real.pi * ((i : ℕ) : ℝ) / 12| ≤
            1 / 10 ^ 15 ∧
          |(getMonthFeaturesDouble (MONTHS.get i)).sin -
              Real.sin (2 * Real.pi * ((i : ℕ) : ℝ) / 12)| ≤ 1 / 10 ^ 15 ∧
          |(getMonthFeaturesDouble (MONTHS.get i)).cos -
              Real.cos (2 * Real.pi * ((i : ℕ) : ℝ) / 12)| ≤ 1 / 10 ^ 15) ∧
      MONTHS[0]? = some "Jan" ∧ MONTHS[6]? = some "Jul" ∧ MONTHS[11]? = some "Dec" ∧
      getMonthFeaturesDouble "Jan" = { sin := 0, cos := 1 } ∧
      getMonthFeaturesDouble "Jul" =
        { sin := Real.sin ((Math.PI : ℚ) : ℝ), cos := Real.cos ((Math.PI : ℚ) : ℝ) } ∧
      ((12 : ℝ) / 10 ^ 17 < (getMonthFeaturesDouble "Jul").sin ∧
        (getMonthFeaturesDouble "Jul").sin < 13 / 10 ^ 17) ∧
      (-1 ≤ (getMonthFeaturesDouble "Jul").cos ∧
        (getMonthFeaturesDouble "Jul").cos ≤ -1 + 1 / 10 ^ 30) := by
  have hJul : getMonthFeaturesDouble "Jul" =
      { sin := Real.sin ((Math.PI : ℚ) : ℝ), cos := Real.cos ((Math.PI : ℚ) : ℝ) } := by
    have hi : indexOf MONTHS "Jul" = 6 := by decide
    simp only [getMonthFeaturesDouble, hi, angleDouble_six]
  refine ⟨rfl, ?_, rfl, rfl, rfl, getMonthFeaturesDouble_Jan, hJul, ?_, ?_⟩
  · intro i
    have hpair : getMonthFeaturesDouble (MONTHS.get i) =
        { sin := Real.sin ((angleDouble ((i : ℕ) : ℤ) : ℚ) : ℝ)
          cos := Real.cos ((angleDouble ((i : ℕ) : ℤ) : ℚ) : ℝ) } := by
      simp only [getMonthFeaturesDouble, indexOf_MONTHS_get i]
    have hnear := angleDouble_near i
    refine ⟨hpair, hnear, ?_, ?_⟩
    · rw [hpair]
      exact le_trans (abs_sin_sub_sin_le _ _) hnear
    · rw [hpair]
      exact le_trans (abs_cos_sub_cos_le _ _) hnear
  · rw [hJul]
    exact sin_PI_bounds
  · rw [hJul]
    exact cos_PI_bounds

/-- C6 counterexample: for "Jul" the code's angle is the double Math.PI, and
the sine returned for it is positive, not 0: the pair is not (0, -1). -/
theorem getMonthFeaturesDouble_Jul_not_exact :
    MONTHS[6]? = some "Jul" ∧
      angleDouble (indexOf MONTHS "Jul") = Math.PI ∧
      0 < (getMonthFeaturesDouble "Jul").sin ∧
      (getMonthFeaturesDouble "Jul").sin ≠ 0 ∧
      getMonthFeaturesDouble "Jul" ≠ { sin := 0, cos := -1 } := by
  have hi : indexOf MONTHS "Jul" = 6 := by decide
  have hpos : 0 < (getMonthFeaturesDouble "Jul").sin := by
    simp only [getMonthFeaturesDouble, hi, angleDouble_six]
    have h := sin_PI_bounds.1
    have h0 : (0 : ℝ) < 12 / 10 ^ 17 := by norm_num
    linarith
  refine ⟨rfl, ?_, hpos, ne_of_gt hpos, ?_⟩
  · rw [hi]
    exact angleDouble_six
  · intro he
    rw [he] at hpos
    exact lt_irrefl _ hpos

/-- C9: for every month label (indeed for every string) the pair returned by
getMonthFeatures lies on the unit circle: sin² + cos² = 1 over the reals. -/
theorem getMonthFeatures_unit_circle (monthLabel : String) :
    (getMonthFeatures monthLabel).sin ^ 2 + (getMonthFeatures monthLabel).cos ^ 2 = 1 := by
  simp only [getMonthFeatures]
  exact Real.sin_sq_add_cos_sq _

/-! ## Region lookup -/

theorem regionPredicate_some_iff (toLowerCase : String → String) (n : String)
    (entry : RegionRecord) :
    regionPredicate toLowerCase (some n) entry = true ↔
      ∃ name, entry.region_name = some name ∧ toLowerCase name = toLowerCase n := by
  unfold regionPredicate
  cases h : entry.region_name with
  | none => simp
  | some name => simp

theorem regionPredicate_congr (toLowerCase : String → String) (n n' : String)
    (h : toLowerCase n' = toLowerCase n) :
    regionPredicate toLowerCase (some n') = regionPredicate toLowerCase (some n) := by
  funext entry
  simp only [regionPredicate, Option.map_some', h]

/-- C7: whatever String.prototype.toLowerCase does to each string, for every
region name n and every dataset ds the lookup returns the first record of ds,
in dataset order, whose region_name equals n up to letter case, that is, has
the same lower-case form (the record is in ds, its name matches, and no record
before it does); it returns null exactly when no record matches; names with
the same lower-case form give the same result, so match("Chicago", ds) =
match("CHICAGO", ds) as these two have the same lower-case form. -/
theorem regionMatch_first_case_insensitive (toLowerCase : String → String) (n : String)
    (ds : List RegionRecord) :
    (∀ r, regionMatch toLowerCase ds (some n) = some r ↔
      (∃ name, r.region_name = some name ∧ toLowerCase name = toLowerCase n) ∧
        ∃ before after, ds = before ++ r :: after ∧
          ∀ x ∈ before, ¬ ∃ name, x.region_name = some name ∧
            toLowerCase name = toLowerCase n) ∧
      (regionMatch toLowerCase ds (some n) = none ↔
        ∀ x ∈ ds, ¬ ∃ name, x.region_name = some name ∧ toLowerCase name = toLowerCase n) ∧
      (∀ n', toLowerCase n' = toLowerCase n →
        regionMatch toLowerCase ds (some n') = regionMatch toLowerCase ds (some n)) ∧
      (toLowerCase "Chicago" = toLowerCase "CHICAGO" →
        regionMatch toLowerCase ds (some "Chicago") =
          regionMatch toLowerCase ds (some "CHICAGO")) := by
  refine ⟨?_, ?_, ?_, ?_⟩
  · intro r
    unfold regionMatch
    rw [List.find?_eq_some, regionPredicate_some_iff]
    constructor
    · rintro ⟨hr, before, after, hds, hbefore⟩
      refine ⟨hr, before, after, hds, ?_⟩
      intro x hx hmatch
      have hx' := hbefore x hx
      rw [(regionPredicate_some_iff toLowerCase n x).mpr hmatch] at hx'
      exact absurd hx' (by decide)
    · rintro ⟨hr, before, after, hds, hbefore⟩
      refine ⟨hr, before, after, hds, ?_⟩
      intro x hx
      cases hp : regionPredicate toLowerCase (some n) x with
      | false => rfl
      | true => exact absurd ((regionPredicate_some_iff toLowerCase n x).mp hp) (hbefore x hx)
  · unfold regionMatch
    rw [List.find?_eq_none]
    constructor
    · intro h x hx hmatch
      exact h x hx ((regionPredicate_some_iff toLowerCase n x).mpr hmatch)
    · intro h x hx hp
      exact h x hx ((regionPredicate_some_iff toLowerCase n x).mp hp)
  · intro n' hn
    unfold regionMatch
    rw [regionPredicate_congr toLowerCase n n' hn]
  · intro h
    unfold regionMatch
    rw [regionPredicate_congr toLowerCase "CHICAGO" "Chicago" h]

/-- C7 witness: with the lower-case forms of Latin-1 strings, in the sample
dataset the name "chicago" finds the row named "CHICAGO", the first of the two
rows that match, and "Chicago" finds the same row as "CHICAGO"; the name
"Montréal" finds the row named "MONTRÉAL"; the name "Aurora" matches no row
and gives null. -/
theorem regionMatch_first_case_insensitive_witness :
    regionMatch latinToLowerCase sampleData (some "chicago") =
        some (sampleRecord (some "CHICAGO") 3) ∧
      regionMatch latinToLowerCase sampleData (some "Chicago") =
        regionMatch latinToLowerCase sampleData (some "CHICAGO") ∧
      regionMatch latinToLowerCase sampleData (some "Montréal") =
        some (sampleRecord (some "MONTRÉAL") 5) ∧
      regionMatch latinToLowerCase sampleData (some "Aurora") = none ∧
      ∀ x ∈ sampleData, ¬ ∃ name, x.region_name = some name ∧
        latinToLowerCase name = latinToLowerCase "Aurora" :=
  ⟨by decide!,
    (regionMatch_first_case_insensitive latinToLowerCase "CHICAGO" sampleData).2.2.2
      (by decide),
    by decide!,
    by decide!,
    (regionMatch_first_case_insensitive latinToLowerCase "Aurora" sampleData).2.1.mp
      (by decide!)⟩

/-! ## Prediction responses -/

theorem step_resolved_of_mem (s : State) (req : ℕ) (o : Origin) (v : ℚ)
    (h : (req, o) ∈ s.pending) :
    ∃ o', step s (Event.resolved req v) = some (settle s req o' (some v)) := by
  have hsome : (s.pending.find? (fun p => p.1 == req)).isSome = true := by
    rw [List.find?_isSome]
    exact ⟨(req, o), h, by simp⟩
  obtain ⟨p, hp⟩ := Option.isSome_iff_exists.mp hsome
  refine ⟨p.2, ?_⟩
  simp only [step, hp]

theorem step_of_posting (s : State) (e : Event)
    (h : e = Event.placeChanged ∨ (e = Event.monthChanged ∧ s.selectedPlace = true)) :
    ∃ o, step s e = some (post s o) := by
  rcases h with h | ⟨h, hsel⟩
  · exact ⟨Origin.place, by rw [h]; rfl⟩
  · exact ⟨Origin.month, by rw [h]; simp only [step, hsel, if_true]⟩

theorem predictionResult_of_resolved (s s' : State) (req : ℕ) (v : ℚ)
    (h : Step s (Event.resolved req v) s') : s'.predictionResult = some v := by
  simp only [Step, step] at h
  split at h
  · injection h with h
    rw [← h]
    rfl
  · exact absurd h (by simp)

/-- C10: in the step model every response that arrives is written to
predictionResult, whichever pending request it answers.  Hence, from any state
s, when request A is posted, request B is posted after it, B is answered with
vB and then A is answered with vA, the run is possible, two more requests have
been posted, B (numbered s.issued + 1) being the latest, and the final
predictionResult is A's value vA, which is not vB when the two differ. -/
theorem last_response_wins (s : State) (eA eB : Event) (vA vB : ℚ)
    (hA : eA = Event.placeChanged ∨ (eA = Event.monthChanged ∧ s.selectedPlace = true))
    (hB : eB = Event.placeChanged ∨ (eB = Event.monthChanged ∧ s.selectedPlace = true)) :
    (∀ (t t' : State) (req : ℕ) (v : ℚ),
        Step t (Event.resolved req v) t' → t'.predictionResult = some v) ∧
      (∀ (t : State) (req : ℕ) (o : Origin) (v : ℚ), (req, o) ∈ t.pending →
        ∃ t', Step t (Event.resolved req v) t' ∧ t'.predictionResult = some v) ∧
      ∃ s', run s [eA, eB, Event.resolved (s.issued + 1) vB, Event.resolved s.issued vA] =
          some s' ∧
        s'.issued = s.issued + 2 ∧
        s'.predictionResult = some vA ∧
        (vA ≠ vB → s'.predictionResult ≠ some vB) := by
  refine ⟨predictionResult_of_resolved, ?_, ?_⟩
  · intro t req o v hmem
    obtain ⟨o', ho'⟩ := step_resolved_of_mem t req o v hmem
    exact ⟨_, ho', rfl⟩
  · obtain ⟨oA, h1⟩ := step_of_posting s eA hA
    have hB' : eB = Event.placeChanged ∨
        (eB = Event.monthChanged ∧ (post s oA).selectedPlace = true) := hB
    obtain ⟨oB, h2⟩ := step_of_posting (post s oA) eB hB'
    have hmemB : (s.issued + 1, oB) ∈ (post (post s oA) oB).pending := by
      simp [post]
    obtain ⟨o3, h3⟩ := step_resolved_of_mem (post (post s oA) oB) (s.issued + 1) oB vB hmemB
    have hmemA : (s.issued, oA) ∈
        (settle (post (post s oA) oB) (s.issued + 1) o3 (some vB)).pending := by
      simp [settle, post]
    obtain ⟨o4, h4⟩ := step_resolved_of_mem
      (settle (post (post s oA) oB) (s.issued + 1) o3 (some vB)) s.issued oA vA hmemA
    refine ⟨settle (settle (post (post s oA) oB) (s.issued + 1) o3 (some vB)) s.issued o4
      (some vA), ?_, ?_, ?_, ?_⟩
    · simp only [run, h1, h2, h3, h4]
    · rfl
    · rfl
    · intro hne he
      have hv : vA = vB := Option.some.inj he
      exact hne hv

/-- C10 witness: after mounting, two place selections post requests 0 and 1;
request 1 is answered with 5, then request 0 with 3, and predictionResult ends
as 3. -/
theorem last_response_wins_witness :
    run initialState
        [Event.placeChanged, Event.placeChanged, Event.resolved 1 5, Event.resolved 0 3] =
        some { issued := 2, pending := [], selectedPlace := true, predictionResult := some 3 } ∧
      ∃ s', run initialState
          [Event.placeChanged, Event.placeChanged, Event.resolved (initialState.issued + 1) 5,
            Event.resolved initialState.issued 3] = some s' ∧
        s'.issued = initialState.issued + 2 ∧
        s'.predictionResult = some 3 ∧
        ((3 : ℚ) ≠ 5 → s'.predictionResult ≠ some 5) :=
  ⟨by decide!,
    (last_response_wins initialState Event.placeChanged Event.placeChanged 3 5
      (Or.inl rfl) (Or.inl rfl)).2.2⟩

/-! ## A prediction of zero -/

/-- C11: a prediction of exactly 0 is handled as if there were none: for every
panelArea > 0 and monthlyBill > 0 the values computed, and the results stored,
for prediction 0 equal those for prediction 4.5 and those for no prediction;
annualEnergy is panelArea * 4.5 * 365, which is not 0, and it exceeds the
annualEnergy computed for prediction 1, so annualEnergy is not monotone in the
prediction. -/
theorem zero_prediction_is_fallback (panelArea monthlyBill : ℚ) (hA : 0 < panelArea)
    (hB : 0 < monthlyBill) :
    calculatorValues panelArea monthlyBill (some 0) =
        calculatorValues panelArea monthlyBill (some 4.5) ∧
      calculatorValues panelArea monthlyBill (some 0) =
        calculatorValues panelArea monthlyBill none ∧
      (∀ old : CalculatedResults,
        calculatorEffect panelArea monthlyBill (some 0) old =
          calculatorEffect panelArea monthlyBill (some 4.5) old) ∧
      ∃ v0 v1, calculatorValues panelArea monthlyBill (some 0) = some v0 ∧
        calculatorValues panelArea monthlyBill (some 1) = some v1 ∧
        v0.annualEnergy = panelArea * 4.5 * 365 ∧
        v0.annualEnergy ≠ 0 ∧
        v1.annualEnergy = panelArea * 1 * 365 ∧
        v1.annualEnergy < v0.annualEnergy := by
  have hs0 : solarEnergyValue (some 0) = 4.5 := by
    simp only [solarEnergyValue, if_true]
  have hs45 : solarEnergyValue (some 4.5) = 4.5 :=
    solarEnergyValue_of_ne_zero 4.5 (by norm_num)
  have hs1 : solarEnergyValue (some 1) = 1 := solarEnergyValue_of_ne_zero 1 one_ne_zero
  have hEq : calculatorValues panelArea monthlyBill (some 0) =
      calculatorValues panelArea monthlyBill (some 4.5) := by
    rw [calculatorValues_of_guard _ _ _ hA hB, calculatorValues_of_guard _ _ _ hA hB, hs0, hs45]
  have hNone : calculatorValues panelArea monthlyBill (some 0) =
      calculatorValues panelArea monthlyBill none := by
    rw [calculatorValues_of_guard _ _ _ hA hB, calculatorValues_of_guard _ _ _ hA hB, hs0,
      solarEnergyValue_none]
  refine ⟨hEq, hNone, ?_, _, _, calculatorValues_of_guard panelArea monthlyBill (some 0) hA hB,
    calculatorValues_of_guard panelArea monthlyBill (some 1) hA hB, ?_, ?_, ?_, ?_⟩
  · intro old
    simp only [calculatorEffect, hEq]
  · show panelArea * solarEnergyValue (some 0) * 365 = panelArea * 4.5 * 365
    rw [hs0]
  · show panelArea * solarEnergyValue (some 0) * 365 ≠ 0
    rw [hs0]
    have : 0 < panelArea * 4.5 * 365 := by positivity
    exact ne_of_gt this
  · show panelArea * solarEnergyValue (some 1) * 365 = panelArea * 1 * 365
    rw [hs1]
  · show panelArea * solarEnergyValue (some 1) * 365 < panelArea * solarEnergyValue (some 0) * 365
    rw [hs0, hs1]
    nlinarith

/-- C11 witness: with panelArea 25 and monthlyBill 150, prediction 0 gives
annualEnergy 41062.5 as prediction 4.5 does, and prediction 1 gives 9125. -/
theorem zero_prediction_is_fallback_witness :
    calculatorValues 25 150 (some 0) =
        some
          { monthlyUsage := 1000
            annualEnergy := 41062.5
            carbonOffset := 17.4515625
            treeEquivalent := 727
            monthlySavingKWh := 1000
            monthlySavingMoney := 150 } ∧
      calculatorValues 25 150 (some 1) =
        some
          { monthlyUsage := 1000
            annualEnergy := 9125
            carbonOffset := 3.878125
            treeEquivalent := 162
            monthlySavingKWh := 9125 / 12
            monthlySavingMoney := 9125 / 12 * 0.15 } ∧
      calculatorValues 25 150 (some 0) = calculatorValues 25 150 (some 4.5) ∧
      calculatorValues 25 150 (some 0) = calculatorValues 25 150 none :=
  ⟨by decide!, by decide!,
    (zero_prediction_is_fallback 25 150 (by norm_num) (by norm_num)).1,
    (zero_prediction_is_fallback 25 150 (by norm_num) (by norm_num)).2.1⟩

/-! ## Lookup without a locality name -/

theorem regionPredicate_none_iff (toLowerCase : String → String) (entry : RegionRecord) :
    regionPredicate toLowerCase none entry = true ↔ entry.region_name = none := by
  unfold regionPredicate
  cases h : entry.region_name with
  | none => simp
  | some name => simp

/-- C12: when the place has no locality name (address_components is absent or
none of them has the type locality, so regionName is absent), the lookup
returns the first dataset record whose region_name is itself absent, and it
returns null exactly when every record has a region_name, whatever
String.prototype.toLowerCase does; in the sample dataset the record without a
name is returned although no name was supplied. -/
theorem regionMatch_absent_name (toLowerCase : String → String) (ds : List RegionRecord) :
    regionName none = none ∧
      (∀ components : List AddressComponent,
        (∀ c ∈ components, "locality" ∉ c.types) → regionName (some components) = none) ∧
      (∀ r, regionMatch toLowerCase ds none = some r ↔
        r.region_name = none ∧
          ∃ before after, ds = before ++ r :: after ∧ ∀ x ∈ before, x.region_name ≠ none) ∧
      (regionMatch toLowerCase ds none = none ↔ ∀ x ∈ ds, x.region_name ≠ none) ∧
      regionMatch toLowerCase sampleData (regionName (some sampleComponentsNoLocality)) =
        some (sampleRecord none 2) := by
  refine ⟨rfl, ?_, ?_, ?_, ?_⟩
  · intro components hc
    have hfind : components.find? (fun c => c.types.contains "locality") = none := by
      rw [List.find?_eq_none]
      intro c hmem hcontains
      exact hc c hmem (by simpa using hcontains)
    simp only [regionName, hfind]
  · intro r
    unfold regionMatch
    rw [List.find?_eq_some, regionPredicate_none_iff]
    constructor
    · rintro ⟨hr, before, after, hds, hbefore⟩
      refine ⟨hr, before, after, hds, ?_⟩
      intro x hx hnone
      have hx' := hbefore x hx
      rw [(regionPredicate_none_iff toLowerCase x).mpr hnone] at hx'
      exact absurd hx' (by decide)
    · rintro ⟨hr, before, after, hds, hbefore⟩
      refine ⟨hr, before, after, hds, ?_⟩
      intro x hx
      cases hp : regionPredicate toLowerCase none x with
      | false => rfl
      | true => exact absurd ((regionPredicate_none_iff toLowerCase x).mp hp) (hbefore x hx)
  · unfold regionMatch
    rw [List.find?_eq_none]
    constructor
    · intro h x hx hnone
      exact h x hx ((regionPredicate_none_iff toLowerCase x).mpr hnone)
    · intro h x hx hp
      exact h x hx ((regionPredicate_none_iff toLowerCase x).mp hp)
  · have hname : regionName (some sampleComponentsNoLocality) = none := by decide
    rw [hname]
    unfold regionMatch sampleData
    have h1 : regionPredicate toLowerCase none (sampleRecord (some "Evanston") 1) = false := by
      simp [regionPredicate, sampleRecord]
    have h2 : regionPredicate toLowerCase none (sampleRecord none 2) = true := by
      simp [regionPredicate, sampleRecord]
    simp only [List.find?, h1, h2]

/-- C12 witness: the sample place without a locality has no regionName, the
lookup then returns the sample row without a name, and a dataset whose rows
all have names gives null. -/
theorem regionMatch_absent_name_witness :
    regionName (some sampleComponents) = some "Chicago" ∧
      regionName (some sampleComponentsNoLocality) = none ∧
      regionMatch latinToLowerCase sampleData none = some (sampleRecord none 2) ∧
      regionMatch latinToLowerCase
          [sampleRecord (some "Evanston") 1, sampleRecord (some "Chicago") 4] none =
        none :=
  ⟨by decide,
    (regionMatch_absent_name latinToLowerCase sampleData).2.1 sampleComponentsNoLocality
      (by decide),
    by decide!,
    (regionMatch_absent_name latinToLowerCase
      [sampleRecord (some "Evanston") 1, sampleRecord (some "Chicago") 4]).2.2.2.1.mpr
      (by decide)⟩

end MapComponent
